import Mathlib

/-!
# Verification of the scrape-parse-cache pipeline of `scpfoundation-explorer`

Shallow embedding of the core pipeline of the repository:
`src/parsing.rs` (record extraction, catalogue loading, detail fetch)
and `src/caching.rs` (whole-catalogue disk cache).

Conventions of the embedding:
* Rust `panic!` / `.unwrap()` failure is modelled by `Option`: a result of
  `none` means the Rust code panics (aborting the enclosing call).
* The network is modelled as an oracle passed explicitly (a function from
  URL to response), and the file system as the content of the single fixed
  cache path (`Option` of a byte list).
* Machine strings are Lean `String`s; bytes are `Nat`s below 256.
-/

namespace Scp

/-- `ClassificationScp` from `src/parsing.rs`: the fixed closed set of
severity classes. -/
inductive ClassificationScp where
  | None
  | Safe
  | Euclid
  | Keter
  | Thaumiel
  | Neutralized
  | NonStandard
deriving DecidableEq, Repr

/-- `ScpObject` from `src/parsing.rs`: one catalogue record, with fields in
the Rust struct's declaration order (`class`, `name`, `id`). -/
structure ScpObject where
  class' : ClassificationScp
  name : String
  id : String
deriving DecidableEq, Repr

/-- `ScpObject::get_document_name` from `src/parsing.rs`:
`format!("SCP-{}", self.id)`. -/
def ScpObject.get_document_name (o : ScpObject) : String :=
  "SCP-" ++ o.id

/-- The classification table of `parse_series` (`src/parsing.rs`, the
`match this { Some(val) => match val { ... } }` on the `alt` attribute):
a total map from the optional alt-text token to a classification. -/
def classificationOfAlt (t : Option String) : ClassificationScp :=
  match t with
  | none => ClassificationScp.None
  | some v =>
    if v = "na.png" then ClassificationScp.Neutralized
    else if v = "safe.png" then ClassificationScp.Safe
    else if v = "euclid.png" then ClassificationScp.Euclid
    else if v = "keter.png" then ClassificationScp.Keter
    else if v = "thaumiel.png" then ClassificationScp.Thaumiel
    else if v = "nonstandard.png" then ClassificationScp.NonStandard
    else ClassificationScp.None

/-- The six alt-text tokens recognized by the classification table. -/
def recognizedAltTokens : List String :=
  ["na.png", "safe.png", "euclid.png", "keter.png", "thaumiel.png",
   "nonstandard.png"]

/-! ## Rust string primitives

Char-list embeddings of the `str` methods the extractor uses
(`starts_with`, `split`, `trim`, `strip_prefix` with the one-char
pattern `"—"`). Implemented structurally so that the kernel can
evaluate them on concrete inputs. -/

/-- Rust `str::starts_with(pat)`: `startsWithChars s p` is true when `p`
is an initial segment of `s`. -/
def startsWithChars : List Char → List Char → Bool
  | _, [] => true
  | [], _ :: _ => false
  | c :: cs, p :: ps => p = c && startsWithChars cs ps

/-- Rust `str::split(sep)` for a one-character separator: splits into the
(non-empty) list of segments between occurrences of `sep`. -/
def splitOnChar (sep : Char) : List Char → List (List Char)
  | [] => [[]]
  | c :: cs =>
    let r := splitOnChar sep cs
    if c = sep then [] :: r
    else
      match r with
      | [] => [[c]]
      | h :: t => (c :: h) :: t

/-- Rust `str::trim`: drop whitespace from both ends. -/
def trimChars (l : List Char) : List Char :=
  ((l.dropWhile Char.isWhitespace).reverse.dropWhile Char.isWhitespace).reverse

/-! ## HTML node model

`scraper`/`ego-tree` raw nodes as seen by `parse_series`: a node value
(element with a name and attributes, text, or any other node kind) plus a
list of child nodes. Sibling navigation is modelled by indexing into the
parent's child list. -/

/-- The value of a DOM node: element, text, or other (comment, doctype,
...). -/
inductive NVal where
  | elem (name : String) (attrs : List (String × String))
  | text (s : String)
  | other

/-- A DOM node: value plus children. -/
inductive Node where
  | mk (val : NVal) (children : List Node)

/-- `NodeRef::value()`. -/
def Node.val : Node → NVal
  | Node.mk v _ => v

/-- `NodeRef::children()` as a list. -/
def Node.children : Node → List Node
  | Node.mk _ cs => cs

/-- `Node::is_element()`. -/
def Node.isElement (n : Node) : Bool :=
  match n.val with
  | NVal.elem _ _ => true
  | _ => false

/-- `Node::is_text()`. -/
def Node.isText (n : Node) : Bool :=
  match n.val with
  | NVal.text _ => true
  | _ => false

/-- `as_element().map(|e| e.name())`. -/
def Node.elemName (n : Node) : Option String :=
  match n.val with
  | NVal.elem nm _ => some nm
  | _ => none

/-- `as_text()`. -/
def Node.textVal (n : Node) : Option String :=
  match n.val with
  | NVal.text s => some s
  | _ => none

/-- `Element::attr(key)`: first binding of `key` in the attribute list. -/
def attrLookup (k : String) : List (String × String) → Option String
  | [] => none
  | (a, v) :: rest => if a = k then some v else attrLookup k rest

/-- `prev_sibling()` of the node at index `k` of the sibling list `cs`. -/
def getPrev (cs : List Node) (k : Nat) : Option Node :=
  match k with
  | 0 => none
  | k' + 1 => cs.get? k'

/-! ## Record extraction (`parse_series`, src/parsing.rs)

A result of `none` models a Rust panic (an `.unwrap()` on `None`), which
aborts the whole `parse_series` call. -/

/-- The anchor filter of `parse_series`: the closure passed to
`i.children().filter(...)`. `none` models the panic of
`c.children().next().unwrap()` on an `<a>` element with no children;
`some b` is the boolean the filter computes. -/
def anchorTest (c : Node) : Option Bool :=
  match c.val with
  | NVal.elem nm _ =>
    if nm = "a" then
      match c.children.head? with
      | none => none
      | some fc =>
        match fc.val with
        | NVal.text t => some (startsWithChars t.data "SCP".data)
        | _ => some false
    else some false
  | _ => some false

/-- `i.children().filter(...).collect()` over the index-annotated child
list, propagating a filter panic. -/
def collectAnchors : List (Nat × Node) → Option (List (Nat × Node))
  | [] => some []
  | (k, c) :: rest =>
    match anchorTest c with
    | none => none
    | some b =>
      match collectAnchors rest with
      | none => none
      | some l => some (if b then (k, c) :: l else l)

/-- The span branch of the name fallback: `span = c.next_sibling()
.unwrap().next_sibling()` (the node at index `k + 2`), accepted when it
is a `span` element whose first child is a text node. Returns the
trimmed text, or `none` when the branch does not apply (this `none` is
not a panic: the code falls through to the direct-text path). -/
def spanName (cs : List Node) (k : Nat) : Option String :=
  match cs.get? (k + 2) with
  | some sp =>
    match sp.val with
    | NVal.elem nm _ =>
      if nm = "span" then
        match sp.children.head? with
        | some tn =>
          match tn.val with
          | NVal.text t2 => some (String.mk (trimChars t2.data))
          | _ => none
        | none => none
      else none
    | _ => none
  | none => none

/-- The direct-text branch of the name fallback:
`c.next_sibling().unwrap().value().as_text().unwrap().trim()
.strip_prefix("—").unwrap_or("NOT FOUND").trim()`. `none` models the
panic of `as_text().unwrap()` when the following sibling `ns` is not a
text node. -/
def fallbackName (ns : Node) : Option String :=
  match ns.val with
  | NVal.text t3 =>
    let tt := trimChars t3.data
    some (String.mk (trimChars
      (if startsWithChars tt ['—'] then tt.drop 1 else "NOT FOUND".data)))
  | _ => none

/-- The complete name determination for one anchor: the span branch
first (`if name == None` guards the fallback), then the direct-text
branch. `none` = panic inside the fallback. -/
def nameOf (cs : List Node) (k : Nat) (ns : Node) : Option String :=
  match spanName cs k with
  | some n => some n
  | none => fallbackName ns

/-- Processing of one collected anchor `c` at index `k` of the sibling
list `cs`: the body of `childrens.iter().for_each(|c| ...)`.
`none` = panic; `some none` = anchor skipped (the sibling-shape test
fails); `some (some o)` = record `o` produced. -/
def processAnchor (cs : List Node) (k : Nat) (c : Node) :
    Option (Option ScpObject) :=
  match c.children.head? with
  | none => none
  | some fc =>
    match fc.val with
    | NVal.text t =>
      match (splitOnChar '-' t.data).get? 1 with
      | none => none
      | some idPart =>
        let id := String.mk (trimChars idPart)
        match cs.get? (k + 1) with
        | none => none
        | some ns =>
          if ns.isText || (ns.isElement && ns.elemName == some "span") then
            match nameOf cs k ns with
            | none => none
            | some nm =>
              match getPrev cs k with
              | none => none
              | some _ =>
                match getPrev cs (k - 1) with
                | none => none
                | some p2 =>
                  match p2.val with
                  | NVal.elem _ attrs =>
                    some (some
                      ⟨classificationOfAlt (attrLookup "alt" attrs), nm, id⟩)
                  | _ => none
          else some none
    | _ => none

/-- Iterate `processAnchor` over the collected anchors in order,
accumulating records and propagating panics. -/
def processAnchors (cs : List Node) : List (Nat × Node) →
    Option (List ScpObject)
  | [] => some []
  | (k, c) :: rest =>
    match processAnchor cs k c with
    | none => none
    | some r =>
      match processAnchors cs rest with
      | none => none
      | some l =>
        some
          (match r with
           | some o => o :: l
           | none => l)

/-- Processing of one paragraph element: collect the qualifying anchor
children, then process each. -/
def parseParagraph (p : Node) : Option (List ScpObject) :=
  match collectAnchors p.children.enum with
  | none => none
  | some anchors => processAnchors p.children anchors

/-- The paragraph selector `#page-content>p`: the element children named
`"p"` of the content container. -/
def selectParagraphs (container : List Node) : List Node :=
  container.filter (fun n => n.elemName == some "p")

/-- Process the zipped paragraph list (`paragraphs.zip(1..101)`),
concatenating each paragraph's records and propagating panics. -/
def processParagraphs : List (Node × Nat) → Option (List ScpObject)
  | [] => some []
  | (p, _) :: rest =>
    match parseParagraph p with
    | none => none
    | some os =>
      match processParagraphs rest with
      | none => none
      | some l => some (os ++ l)

/-- The pure part of `parse_series`: given the child list of the
`#page-content` container of the fetched document, extract the records.
`paragraphs.zip(1..101)` caps the examined paragraphs at 100. -/
def parseSeriesDoc (container : List Node) : Option (List ScpObject) :=
  processParagraphs ((selectParagraphs container).zip (List.range' 1 100))

/-! ## Cache serialization (src/caching.rs)

Byte-level model of the `bincode` encoding used by `cache_objects` /
`decache_objects`: little-endian fixed-width integers (u64 lengths, u32
enum variant indices), length-prefixed sequences and strings. The UTF-8
detail of string bytes is abstracted to one 4-byte unit per character.
Bytes are `Nat`s; the decoder mirrors the encoder and, like
`deserialize_from` on a reader, ignores trailing bytes. -/

/-- `k`-byte little-endian encoding of `n` (truncating at `256 ^ k`, as
a fixed-width machine integer does). -/
def encodeLE : Nat → Nat → List Nat
  | 0, _ => []
  | k + 1, n => n % 256 :: encodeLE k (n / 256)

/-- Read a `k`-byte little-endian integer from the front of a byte
list. -/
def decodeLE : Nat → List Nat → Option (Nat × List Nat)
  | 0, bs => some (0, bs)
  | _ + 1, [] => none
  | k + 1, b :: bs =>
    match decodeLE k bs with
    | none => none
    | some (n, r) => some (b + 256 * n, r)

/-- One character as a 4-byte code-point unit. -/
def encodeChar (c : Char) : List Nat := encodeLE 4 c.toNat

/-- A string: u64 length, then its characters. -/
def encodeString (s : String) : List Nat :=
  encodeLE 8 s.length ++ (s.data.map encodeChar).flatten

/-- The `bincode` variant index of a `ClassificationScp` value
(declaration order in src/parsing.rs). -/
def classIdx : ClassificationScp → Nat
  | ClassificationScp.None => 0
  | ClassificationScp.Safe => 1
  | ClassificationScp.Euclid => 2
  | ClassificationScp.Keter => 3
  | ClassificationScp.Thaumiel => 4
  | ClassificationScp.Neutralized => 5
  | ClassificationScp.NonStandard => 6

/-- Partial inverse of `classIdx`. -/
def classOfIdx (n : Nat) : Option ClassificationScp :=
  if n = 0 then some ClassificationScp.None
  else if n = 1 then some ClassificationScp.Safe
  else if n = 2 then some ClassificationScp.Euclid
  else if n = 3 then some ClassificationScp.Keter
  else if n = 4 then some ClassificationScp.Thaumiel
  else if n = 5 then some ClassificationScp.Neutralized
  else if n = 6 then some ClassificationScp.NonStandard
  else none

/-- One `ScpObject`, fields in declaration order: `class`, `name`,
`id`. -/
def encodeObj (o : ScpObject) : List Nat :=
  encodeLE 4 (classIdx o.class') ++ encodeString o.name ++ encodeString o.id

/-- The full record vector: u64 length, then the records. -/
def encodeObjects (R : List ScpObject) : List Nat :=
  encodeLE 8 R.length ++ (R.map encodeObj).flatten

/-- Decode one character. -/
def decodeChar (bs : List Nat) : Option (Char × List Nat) :=
  match decodeLE 4 bs with
  | none => none
  | some (n, r) => some (Char.ofNat n, r)

/-- Decode `k` characters. -/
def decodeChars : Nat → List Nat → Option (List Char × List Nat)
  | 0, bs => some ([], bs)
  | k + 1, bs =>
    match decodeChar bs with
    | none => none
    | some (c, r) =>
      match decodeChars k r with
      | none => none
      | some (cs, r2) => some (c :: cs, r2)

/-- Decode a string. -/
def decodeString (bs : List Nat) : Option (String × List Nat) :=
  match decodeLE 8 bs with
  | none => none
  | some (n, r) =>
    match decodeChars n r with
    | none => none
    | some (cs, r2) => some (String.mk cs, r2)

/-- Decode a classification. -/
def decodeClass (bs : List Nat) : Option (ClassificationScp × List Nat) :=
  match decodeLE 4 bs with
  | none => none
  | some (n, r) =>
    match classOfIdx n with
    | none => none
    | some c => some (c, r)

/-- Decode one record. -/
def decodeObj (bs : List Nat) : Option (ScpObject × List Nat) :=
  match decodeClass bs with
  | none => none
  | some (c, r1) =>
    match decodeString r1 with
    | none => none
    | some (nm, r2) =>
      match decodeString r2 with
      | none => none
      | some (i, r3) => some (⟨c, nm, i⟩, r3)

/-- Decode `k` records. -/
def decodeObjsN : Nat → List Nat → Option (List ScpObject × List Nat)
  | 0, bs => some ([], bs)
  | k + 1, bs =>
    match decodeObj bs with
    | none => none
    | some (o, r) =>
      match decodeObjsN k r with
      | none => none
      | some (os, r2) => some (o :: os, r2)

/-- Decode a full record vector, ignoring trailing bytes (as
`deserialize_from` on a buffered reader does). -/
def decodeObjects (bs : List Nat) : Option (List ScpObject) :=
  match decodeLE 8 bs with
  | none => none
  | some (n, r) =>
    match decodeObjsN n r with
    | none => none
    | some (os, _) => some os

/-! ## Cache store (src/caching.rs)

The file system is the content of the one fixed path
`cache_o.data` under the current working directory: `none` means the
file does not exist (or cannot be opened), `some bytes` its content. -/

/-- `CACHE_O_PATH` from src/caching.rs. -/
def CACHE_O_PATH : String := "cache_o.data"

/-- The cache file's content at the fixed path. -/
abbrev Fs := Option (List Nat)

/-- `cache_objects`: create/overwrite the cache file with the encoded
records, regardless of what the file held before. -/
def cache_objects (R : List ScpObject) (_fs : Fs) : Fs :=
  some (encodeObjects R)

/-- The outcome of `decache_objects`: `ok` (the `Ok(objects)` branch),
`cacheMiss` (`Err(CacheError::FileCacheNotExists)`), or `panic`
(`deserialize_from(f).unwrap()` on a malformed file). -/
inductive DecacheResult where
  | ok (objects : List ScpObject)
  | cacheMiss
  | panic
deriving DecidableEq, Repr

/-- `decache_objects`: open the fixed path (`Err` → `CacheMiss`), decode
(`unwrap` → panic on failure). -/
def decache_objects (fs : Fs) : DecacheResult :=
  match fs with
  | none => DecacheResult.cacheMiss
  | some bytes =>
    match decodeObjects bytes with
    | some R => DecacheResult.ok R
    | none => DecacheResult.panic

/-! ## Catalogue loader (`parse_all`, src/parsing.rs)

The network is an oracle `net` mapping each URL to the child list of the
`#page-content` container of the document it serves. -/

/-- `URL_SERIES` from src/parsing.rs. -/
def URL_SERIES : String := "https://scpfoundation.net/scp-series"

/-- `MAX_SERIES` from src/parsing.rs. -/
def MAX_SERIES : Nat := 9

/-- The URLs `parse_all` fetches on a cache miss, in order: the bare
base URL, then `format!("{}-{}", URL_SERIES, i)` for
`i in 2..MAX_SERIES`. -/
def seriesUrls : List String :=
  URL_SERIES ::
    (List.range' 2 (MAX_SERIES - 2)).map (fun i => URL_SERIES ++ "-" ++ toString i)

/-- Run `parse_series` on each URL in order, propagating panics. -/
def parseSeriesList (net : String → List Node) :
    List String → Option (List (List ScpObject))
  | [] => some []
  | u :: us =>
    match parseSeriesDoc (net u) with
    | none => none
    | some os =>
      match parseSeriesList net us with
      | none => none
      | some l => some (os :: l)

/-- The observable outcome of one `parse_all` call. -/
structure LoadResult where
  records : List ScpObject
  fetched : List String
  cacheWrites : List (List ScpObject)
  fs : Fs
deriving DecidableEq, Repr

/-- `parse_all`: try the cache; on a hit return it unchanged, on a miss
fetch every series in order, write the concatenation to the cache once,
and return it. `none` models a panic (cache decode failure, or a panic
inside any `parse_series` call). -/
def parse_all (net : String → List Node) (fs : Fs) : Option LoadResult :=
  match decache_objects fs with
  | DecacheResult.ok o => some ⟨o, [], [], fs⟩
  | DecacheResult.panic => none
  | DecacheResult.cacheMiss =>
    match parseSeriesList net seriesUrls with
    | none => none
    | some rss =>
      some ⟨rss.flatten, seriesUrls, [rss.flatten],
        cache_objects rss.flatten fs⟩

/-! ## Detail fetcher (`parse_object_page`, src/parsing.rs) -/

/-- `ApiObjectResult` from src/parsing.rs. -/
structure ApiObjectResult where
  page_id : String
  title : String
  source : String
  tags : List String
  locked : Bool
deriving DecidableEq, Repr

/-- The transport outcome of `reqwest::get`: a response with a status
code and a body, or a transport error. -/
inductive HttpResp where
  | ok (status : Nat) (body : String)
  | err
deriving DecidableEq, Repr

/-- `parse_object_page`, parameterized by the JSON decoder
(`serde_json::from_str`): `Err(_) => None`; on `Ok`, `Some(decoded)`
when the status is 200 OK — where a decode failure is
`.unwrap()` panic (outer `none`) — and `None` otherwise. -/
def parse_object_page (decodeApi : String → Option ApiObjectResult)
    (resp : HttpResp) : Option (Option ApiObjectResult) :=
  match resp with
  | HttpResp.err => some none
  | HttpResp.ok st body =>
    if st = 200 then
      match decodeApi body with
      | some a => some (some a)
      | none => none
    else some none

/-! ## Concrete document fixtures used in the theorems below -/

/-- An `<img alt="...">` element node. -/
def img (alt : String) : Node := Node.mk (NVal.elem "img" [("alt", alt)]) []

/-- A bare text node. -/
def txt (s : String) : Node := Node.mk (NVal.text s) []

/-- An `<a>` element whose sole child is a text node. -/
def anchor (s : String) : Node := Node.mk (NVal.elem "a" []) [txt s]

/-- A `<span>` element wrapping a single text node. -/
def spanWrap (s : String) : Node := Node.mk (NVal.elem "span" []) [txt s]

/-- A `<p>` element with the given children. -/
def para (cs : List Node) : Node := Node.mk (NVal.elem "p" []) cs

/-! ## Serialization round-trip lemmas -/

theorem decodeLE_encodeLE (k : Nat) :
    ∀ (n : Nat) (r : List Nat), n < 256 ^ k →
      decodeLE k (encodeLE k n ++ r) = some (n, r) := by
  induction k with
  | zero =>
    intro n r h
    have hn : n = 0 := by simpa using h
    subst hn
    rfl
  | succ k ih =>
    intro n r h
    have hd : n / 256 < 256 ^ k := by
      apply Nat.div_lt_of_lt_mul
      calc n < 256 ^ (k + 1) := h
        _ = 256 * 256 ^ k := by ring
    have hmod : n % 256 + 256 * (n / 256) = n := Nat.mod_add_div n 256
    simp only [encodeLE, List.cons_append, decodeLE, List.append_eq,
      ih (n / 256) r hd, hmod]

theorem char_toNat_lt (c : Char) : c.toNat < 256 ^ 4 := by
  have := c.val.toNat_lt
  simp only [Char.toNat]
  omega

theorem decodeChar_encodeChar (c : Char) (r : List Nat) :
    decodeChar (encodeChar c ++ r) = some (c, r) := by
  simp [decodeChar, encodeChar, decodeLE_encodeLE 4 c.toNat r (char_toNat_lt c),
    Char.ofNat_toNat]

theorem decodeChars_encodeChars (l : List Char) :
    ∀ r : List Nat,
      decodeChars l.length ((l.map encodeChar).flatten ++ r) = some (l, r) := by
  induction l with
  | nil => intro r; rfl
  | cons c cs ih =>
    intro r
    simp only [List.map_cons, List.flatten_cons, List.length_cons,
      List.append_assoc, decodeChars, decodeChar_encodeChar, ih r]

theorem decodeString_encodeString (s : String) (r : List Nat)
    (h : s.length < 256 ^ 8) :
    decodeString (encodeString s ++ r) = some (s, r) := by
  have hl : s.length = s.data.length := rfl
  have h' : s.data.length < 256 ^ 8 := hl ▸ h
  simp only [decodeString, encodeString, List.append_assoc, hl,
    decodeLE_encodeLE 8 s.data.length _ h', decodeChars_encodeChars s.data r]

theorem decodeClass_encodeClass (c : ClassificationScp) (r : List Nat) :
    decodeClass (encodeLE 4 (classIdx c) ++ r) = some (c, r) := by
  have hle : decodeLE 4 (encodeLE 4 (classIdx c) ++ r) = some (classIdx c, r) :=
    decodeLE_encodeLE 4 (classIdx c) r (by cases c <;> norm_num [classIdx])
  simp only [decodeClass, hle]
  cases c <;> rfl

theorem decodeObj_encodeObj (o : ScpObject) (r : List Nat)
    (hn : o.name.length < 256 ^ 8) (hi : o.id.length < 256 ^ 8) :
    decodeObj (encodeObj o ++ r) = some (o, r) := by
  simp only [decodeObj, encodeObj, List.append_assoc,
    decodeClass_encodeClass, decodeString_encodeString _ _ hn,
    decodeString_encodeString _ _ hi]

theorem decodeObjsN_encode (R : List ScpObject) :
    ∀ r : List Nat,
      (∀ o ∈ R, o.name.length < 256 ^ 8 ∧ o.id.length < 256 ^ 8) →
      decodeObjsN R.length ((R.map encodeObj).flatten ++ r) = some (R, r) := by
  induction R with
  | nil => intro r _; rfl
  | cons o os ih =>
    intro r h
    have ho := h o (List.mem_cons_self o os)
    simp only [List.map_cons, List.flatten_cons, List.length_cons,
      List.append_assoc, decodeObjsN, decodeObj_encodeObj o _ ho.1 ho.2,
      ih r (fun o' ho' => h o' (List.mem_cons_of_mem o ho'))]

theorem decodeObjects_encodeObjects (R : List ScpObject)
    (hR : R.length < 256 ^ 8)
    (hf : ∀ o ∈ R, o.name.length < 256 ^ 8 ∧ o.id.length < 256 ^ 8) :
    decodeObjects (encodeObjects R) = some R := by
  have hN := decodeObjsN_encode R [] hf
  rw [List.append_nil] at hN
  simp only [decodeObjects, encodeObjects,
    decodeLE_encodeLE 8 R.length _ hR, hN]

/-! ## Shared helper lemmas -/

theorem zip_take_length {α β : Type} :
    ∀ (l : List α) (r : List β), l.zip r = (l.take r.length).zip r
  | [], _ => by simp
  | _ :: _, [] => by simp
  | a :: l, b :: r => by
    simp only [List.zip_cons_cons, List.length_cons, List.take_succ_cons]
    rw [← zip_take_length l r]

/-- A panic while processing any collected anchor aborts the whole
anchor list (no record of the list survives). -/
theorem processAnchors_panic (cs : List Node) :
    ∀ (l : List (Nat × Node)) (k : Nat) (c : Node), (k, c) ∈ l →
      processAnchor cs k c = none → processAnchors cs l = none := by
  intro l
  induction l with
  | nil => intro k c h _; simp at h
  | cons p rest ih =>
    intro k c hmem hpanic
    rcases List.mem_cons.mp hmem with heq | hmem'
    · rw [← heq]
      simp [processAnchors, hpanic]
    · obtain ⟨k', c'⟩ := p
      simp only [processAnchors]
      cases hpa : processAnchor cs k' c' with
      | none => rfl
      | some r => simp [ih k c hmem' hpanic]

/-! ## Claim theorems -/

/-- C1: on a cache hit (`decache_objects` succeeds), `parse_all` returns
exactly the cached record sequence, fetches no URL and writes nothing,
and leaves the cache file unchanged; hence a second call (under any
network oracle) returns the identical result, again with zero fetches. -/
theorem parse_all_cache_hit (net net2 : String → List Node) (fs : Fs)
    (o : List ScpObject) (h : decache_objects fs = DecacheResult.ok o) :
    parse_all net fs = some ⟨o, [], [], fs⟩ ∧
    (∃ r, parse_all net fs = some r ∧ r.fetched = [] ∧
      parse_all net2 r.fs = some r) := by
  have h1 : parse_all net fs = some ⟨o, [], [], fs⟩ := by
    simp [parse_all, h]
  have h2 : parse_all net2 fs = some ⟨o, [], [], fs⟩ := by
    simp [parse_all, h]
  exact ⟨h1, ⟨o, [], [], fs⟩, h1, rfl, h2⟩

theorem parse_all_cache_hit_witness :
    parse_all (fun _ => [])
      (some (encodeObjects [⟨ClassificationScp.Safe, "a", "1"⟩])) =
      some ⟨[⟨ClassificationScp.Safe, "a", "1"⟩], [], [],
        some (encodeObjects [⟨ClassificationScp.Safe, "a", "1"⟩])⟩ :=
  (parse_all_cache_hit (fun _ => []) (fun _ => []) _ _ (by decide)).1

/-- C2: on a cache miss (no cache file), `parse_all` fetches exactly the
8 series URLs in ascending order — the bare base URL for series 1, then
`-2` through `-8` — returns the concatenation of the per-series records
in series order, and performs exactly one cache write holding the full
result. -/
theorem parse_all_cache_miss (net : String → List Node)
    (rss : List (List ScpObject))
    (h : parseSeriesList net seriesUrls = some rss) :
    parse_all net none =
      some ⟨rss.flatten, seriesUrls, [rss.flatten],
        some (encodeObjects rss.flatten)⟩ ∧
    seriesUrls =
      ["https://scpfoundation.net/scp-series",
       "https://scpfoundation.net/scp-series-2",
       "https://scpfoundation.net/scp-series-3",
       "https://scpfoundation.net/scp-series-4",
       "https://scpfoundation.net/scp-series-5",
       "https://scpfoundation.net/scp-series-6",
       "https://scpfoundation.net/scp-series-7",
       "https://scpfoundation.net/scp-series-8"] ∧
    seriesUrls.length = MAX_SERIES - 1 := by
  have hm : decache_objects none = DecacheResult.cacheMiss := rfl
  refine ⟨?_, by decide, by decide⟩
  simp [parse_all, hm, h, cache_objects]

theorem parse_all_cache_miss_witness :
    parse_all (fun _ => []) none =
      some ⟨([[], [], [], [], [], [], [], []] :
          List (List ScpObject)).flatten, seriesUrls,
        [([[], [], [], [], [], [], [], []] :
          List (List ScpObject)).flatten],
        some (encodeObjects ([[], [], [], [], [], [], [], []] :
          List (List ScpObject)).flatten)⟩ :=
  (parse_all_cache_miss (fun _ => []) _ (by decide)).1

/-- C3: saving a record sequence with `cache_objects` and loading it back
with `decache_objects` yields exactly the same sequence, field for field
and in order; the save overwrites whatever the cache file held before
(the resulting file content does not depend on the previous state). -/
theorem cache_save_load_roundtrip (R : List ScpObject) (fs : Fs)
    (hR : R.length < 256 ^ 8)
    (hf : ∀ o ∈ R, o.name.length < 256 ^ 8 ∧ o.id.length < 256 ^ 8) :
    decache_objects (cache_objects R fs) = DecacheResult.ok R ∧
    cache_objects R fs = some (encodeObjects R) := by
  refine ⟨?_, rfl⟩
  simp [cache_objects, decache_objects, decodeObjects_encodeObjects R hR hf]

theorem cache_save_load_roundtrip_witness :
    decache_objects (cache_objects
      [⟨ClassificationScp.Euclid, "«Живая» комната", "002"⟩]
      (some [9, 9, 9])) =
      DecacheResult.ok [⟨ClassificationScp.Euclid, "«Живая» комната", "002"⟩] :=
  (cache_save_load_roundtrip _ _ (by decide) (by decide)).1

/-- C4: `decache_objects` reports a cache miss exactly when the cache
file does not exist (cannot be opened); when the file exists but its
content fails to decode, the call panics instead of reporting a miss. -/
theorem decache_outcomes (fs : Fs) :
    (decache_objects fs = DecacheResult.cacheMiss ↔ fs = none) ∧
    (∀ bytes, fs = some bytes → decodeObjects bytes = none →
      decache_objects fs = DecacheResult.panic) := by
  constructor
  · cases fs with
    | none => simp [decache_objects]
    | some b =>
      simp only [decache_objects]
      cases hd : decodeObjects b <;> simp
  · rintro bytes rfl hdec
    simp [decache_objects, hdec]

theorem decache_outcomes_witness :
    decache_objects (some [1]) = DecacheResult.panic :=
  (decache_outcomes (some [1])).2 [1] rfl (by decide)

/-- C5: the classification mapper is total — every optional alt-text
token is sent to exactly one classification — the six recognized
tokens map to their fixed classes, and an absent or unrecognized token
maps to `None`. -/
theorem classification_map_total (t : Option String) (s : String)
    (hs : s ∉ recognizedAltTokens) :
    (∃! c, classificationOfAlt t = c) ∧
    classificationOfAlt (some "na.png") = ClassificationScp.Neutralized ∧
    classificationOfAlt (some "safe.png") = ClassificationScp.Safe ∧
    classificationOfAlt (some "euclid.png") = ClassificationScp.Euclid ∧
    classificationOfAlt (some "keter.png") = ClassificationScp.Keter ∧
    classificationOfAlt (some "thaumiel.png") = ClassificationScp.Thaumiel ∧
    classificationOfAlt (some "nonstandard.png") =
      ClassificationScp.NonStandard ∧
    classificationOfAlt none = ClassificationScp.None ∧
    classificationOfAlt (some s) = ClassificationScp.None := by
  simp only [recognizedAltTokens, List.mem_cons, List.not_mem_nil,
    or_false, not_or] at hs
  obtain ⟨h1, h2, h3, h4, h5, h6⟩ := hs
  exact ⟨⟨classificationOfAlt t, rfl, fun y hy => hy.symm⟩,
    by decide, by decide, by decide, by decide, by decide, by decide,
    by decide, by simp [classificationOfAlt, h1, h2, h3, h4, h5, h6]⟩

theorem classification_map_total_witness :
    classificationOfAlt (some "x.png") = ClassificationScp.None :=
  (classification_map_total (some "x.png") "x.png"
    (by decide)).2.2.2.2.2.2.2.2

/-- C9: `parse_object_page` returns `None` exactly on a transport error
or a non-200 status; it returns `Some` only for a 200 OK response whose
body decodes; and a 200 OK response whose body fails to decode is a
panic, not a silent `None`. -/
theorem parse_object_page_outcomes
    (decodeApi : String → Option ApiObjectResult) (resp : HttpResp) :
    (parse_object_page decodeApi resp = some none ↔
      resp = HttpResp.err ∨
        ∃ st body, resp = HttpResp.ok st body ∧ st ≠ 200) ∧
    (∀ a, parse_object_page decodeApi resp = some (some a) →
      ∃ body, resp = HttpResp.ok 200 body ∧ decodeApi body = some a) ∧
    (∀ body, resp = HttpResp.ok 200 body → decodeApi body = none →
      parse_object_page decodeApi resp = none) := by
  refine ⟨?_, ?_, ?_⟩
  · cases resp with
    | err => simp [parse_object_page]
    | ok st body =>
      by_cases hst : st = 200
      · subst hst
        simp only [parse_object_page, if_pos rfl]
        cases hd : decodeApi body <;> simp
      · constructor
        · intro _; exact Or.inr ⟨st, body, rfl, hst⟩
        · intro _; simp [parse_object_page, hst]
  · intro a ha
    cases resp with
    | err => simp [parse_object_page] at ha
    | ok st body =>
      by_cases hst : st = 200
      · subst hst
        refine ⟨body, rfl, ?_⟩
        simp only [parse_object_page, if_pos rfl] at ha
        cases hd : decodeApi body with
        | none => rw [hd] at ha; simp at ha
        | some b => rw [hd] at ha; simp_all
      · simp [parse_object_page, hst] at ha
  · rintro body rfl hdec
    simp [parse_object_page, hdec]

theorem parse_object_page_outcomes_witness :
    parse_object_page (fun _ => none) (HttpResp.ok 200 "x") = none :=
  (parse_object_page_outcomes (fun _ => none)
    (HttpResp.ok 200 "x")).2.2 "x" rfl rfl

/-- C10: the extractor examines at most the first 100 paragraph children
of the content container — the extraction result depends only on the
first 100 selected paragraphs, and the zipped paragraph list never holds
more than 100 entries — so anchors in later paragraphs are never
extracted. -/
theorem parse_series_paragraph_cap (container : List Node) :
    parseSeriesDoc container =
      processParagraphs (((selectParagraphs container).take 100).zip
        (List.range' 1 100)) ∧
    ((selectParagraphs container).zip (List.range' 1 100)).length ≤ 100 := by
  constructor
  · have hz := zip_take_length (selectParagraphs container)
      (List.range' 1 100)
    simp only [List.length_range'] at hz
    exact congrArg processParagraphs hz
  · simp [List.length_zip]

/-- C6 counterexample: a qualifying anchor (`SCP-173`, with a valid
classification image two siblings back) whose immediately-following
sibling is a span element wrapping a text node. The claim says the
record's display name is that span's text; the code instead looks for a
span one position later, finds none, falls back to
`as_text().unwrap()` on the span element, and panics — the whole page
extraction aborts with no record at all. -/
theorem name_span_immediate_cex :
    parseSeriesDoc
      [para [img "safe.png", txt " ", anchor "SCP-173", spanWrap "Статуя"]] =
      none := by decide

/-- C6 amended: the span path of the name fallback reads the node two
positions after the anchor (one past the immediately-following sibling);
when that node is a span wrapping a text node, the name is that text,
trimmed, and it takes priority over the direct-text path. Otherwise the
name is the text of the immediately-following sibling, trimmed, stripped
of a leading em-dash (with sentinel "NOT FOUND" when the strip fails)
and trimmed again — and if that sibling is not a text node the
extraction panics. A produced record carries exactly the name the
fallback selects. -/
theorem name_two_path_amended (cs : List Node) (k : Nat) (ns : Node) :
    (∀ sp tn attrs t2, cs.get? (k + 2) = some sp →
      sp.val = NVal.elem "span" attrs → sp.children.head? = some tn →
      tn.val = NVal.text t2 →
      nameOf cs k ns = some (String.mk (trimChars t2.data))) ∧
    (∀ nm, spanName cs k = some nm → nameOf cs k ns = some nm) ∧
    (∀ t3, spanName cs k = none → ns.val = NVal.text t3 →
      startsWithChars (trimChars t3.data) ['—'] = true →
      nameOf cs k ns =
        some (String.mk (trimChars ((trimChars t3.data).drop 1)))) ∧
    (∀ t3, spanName cs k = none → ns.val = NVal.text t3 →
      startsWithChars (trimChars t3.data) ['—'] = false →
      nameOf cs k ns = some "NOT FOUND") ∧
    (spanName cs k = none → ns.textVal = none → nameOf cs k ns = none) ∧
    (∀ c fc t idPart nm p1 p2 enm attrs,
      c.children.head? = some fc → fc.val = NVal.text t →
      (splitOnChar '-' t.data).get? 1 = some idPart →
      cs.get? (k + 1) = some ns →
      (ns.isText || (ns.isElement && ns.elemName == some "span")) = true →
      nameOf cs k ns = some nm →
      getPrev cs k = some p1 → getPrev cs (k - 1) = some p2 →
      p2.val = NVal.elem enm attrs →
      processAnchor cs k c =
        some (some ⟨classificationOfAlt (attrLookup "alt" attrs), nm,
          String.mk (trimChars idPart)⟩)) := by
  have hnf : String.mk (trimChars "NOT FOUND".data) = "NOT FOUND" := by decide
  refine ⟨?_, ?_, ?_, ?_, ?_, ?_⟩
  · intro sp tn attrs t2 hsp hspv hch htn
    rw [List.get?_eq_getElem?] at hsp
    have hspan : spanName cs k = some (String.mk (trimChars t2.data)) := by
      simp [spanName, hsp, hspv, hch, htn]
    simp [nameOf, hspan]
  · intro nm h
    simp [nameOf, h]
  · intro t3 hsp ht3 hsw
    simp [nameOf, hsp, fallbackName, ht3, hsw]
  · intro t3 hsp ht3 hsw
    simp [nameOf, hsp, fallbackName, ht3, hsw, hnf]
  · intro hsp htv
    cases hv : ns.val with
    | text s => rw [Node.textVal, hv] at htv; simp at htv
    | elem nm attrs => simp [nameOf, hsp, fallbackName, hv]
    | other => simp [nameOf, hsp, fallbackName, hv]
  · intro c fc t idPart nm p1 p2 enm attrs hfc ht hid hns hcond hnm hp1 hp2 hpe
    rw [List.get?_eq_getElem?] at hid hns
    simp [processAnchor, hfc, ht, hid, hns, hcond, hnm, hp1, hp2, hpe]

theorem name_two_path_amended_witness :
    nameOf [img "safe.png", txt " ", anchor "SCP-173", txt "— A",
      spanWrap "B"] 2 (txt "— A") = some "B" := by
  have h := (name_two_path_amended
    [img "safe.png", txt " ", anchor "SCP-173", txt "— A", spanWrap "B"] 2
    (txt "— A")).1 (spanWrap "B") (txt "B") [] "B" rfl rfl rfl rfl
  have hb : String.mk (trimChars "B".data) = "B" := by decide
  rw [hb] at h
  exact h

/-- C7 counterexample: a qualifying anchor at the very start of its
paragraph (no preceding siblings), with a valid direct-text name
sibling. The claim says the absent classification element yields the
classification `None`; the code instead panics on
`prev_sibling().unwrap()` and the whole page extraction aborts with no
record. -/
theorem class_missing_prev_cex :
    parseSeriesDoc [para [anchor "SCP-001", txt "— x"]] = none := by decide

/-- C7 amended: for a qualifying anchor the classification is the
Classification Mapper applied to the `alt` attribute of the node two
siblings before the anchor; a present element without an `alt`
attribute yields `None`; but a missing first or second preceding
sibling, or a non-element node two back, is a panic that aborts the
whole page extraction rather than yielding `None`. -/
theorem class_lookup_amended (cs : List Node) (k : Nat) (c fc ns : Node)
    (t nm : String) (idPart : List Char)
    (hfc : c.children.head? = some fc) (ht : fc.val = NVal.text t)
    (hid : (splitOnChar '-' t.data).get? 1 = some idPart)
    (hns : cs.get? (k + 1) = some ns)
    (hcond : (ns.isText || (ns.isElement && ns.elemName == some "span"))
      = true)
    (hnm : nameOf cs k ns = some nm) :
    (∀ p1 p2 enm attrs, getPrev cs k = some p1 →
      getPrev cs (k - 1) = some p2 → p2.val = NVal.elem enm attrs →
      processAnchor cs k c =
        some (some ⟨classificationOfAlt (attrLookup "alt" attrs), nm,
          String.mk (trimChars idPart)⟩)) ∧
    (∀ p1 p2 enm attrs, getPrev cs k = some p1 →
      getPrev cs (k - 1) = some p2 → p2.val = NVal.elem enm attrs →
      attrLookup "alt" attrs = none →
      processAnchor cs k c =
        some (some ⟨ClassificationScp.None, nm,
          String.mk (trimChars idPart)⟩)) ∧
    (getPrev cs k = none → processAnchor cs k c = none) ∧
    (∀ p1, getPrev cs k = some p1 → getPrev cs (k - 1) = none →
      processAnchor cs k c = none) ∧
    (∀ p1 p2, getPrev cs k = some p1 → getPrev cs (k - 1) = some p2 →
      p2.isElement = false → processAnchor cs k c = none) := by
  rw [List.get?_eq_getElem?] at hid hns
  refine ⟨?_, ?_, ?_, ?_, ?_⟩
  · intro p1 p2 enm attrs hp1 hp2 hpe
    simp [processAnchor, hfc, ht, hid, hns, hcond, hnm, hp1, hp2, hpe]
  · intro p1 p2 enm attrs hp1 hp2 hpe halt
    simp [processAnchor, hfc, ht, hid, hns, hcond, hnm, hp1, hp2, hpe,
      halt, classificationOfAlt]
  · intro hp1
    simp [processAnchor, hfc, ht, hid, hns, hcond, hnm, hp1]
  · intro p1 hp1 hp2
    simp [processAnchor, hfc, ht, hid, hns, hcond, hnm, hp1, hp2]
  · intro p1 p2 hp1 hp2 hpe
    cases hv : p2.val with
    | elem nm2 attrs2 => rw [Node.isElement, hv] at hpe; simp at hpe
    | text s => simp [processAnchor, hfc, ht, hid, hns, hcond, hnm, hp1,
        hp2, hv]
    | other => simp [processAnchor, hfc, ht, hid, hns, hcond, hnm, hp1,
        hp2, hv]

theorem class_lookup_amended_witness :
    processAnchor [anchor "SCP-001", txt "— x"] 0 (anchor "SCP-001") =
      none :=
  (class_lookup_amended [anchor "SCP-001", txt "— x"] 0 (anchor "SCP-001")
    (txt "SCP-001") (txt "— x") "SCP-001" "x" ("001".data)
    rfl rfl (by decide) rfl (by decide) (by decide)).2.2.1 rfl

/-- C8 counterexample: a paragraph with a fully well-formed qualifying
anchor (`SCP-002`, which alone would yield a record) followed by a
malformed qualifying anchor (`SCP-003` as the last child, so it has no
following sibling). The claim says the malformed anchor is skipped and
never aborts its siblings' extraction; the code panics on
`next_sibling().unwrap()` and the whole page yields nothing — the
well-formed anchor's record is lost too. -/
theorem malformed_anchor_aborts_page_cex :
    parseSeriesDoc
      [para [img "safe.png", txt " ", anchor "SCP-002", txt "— A",
        img "keter.png", txt " ", anchor "SCP-003"]] = none := by decide

/-- C8 amended: an anchor whose following sibling exists but is neither
a text node nor a span element is skipped — no record, no error. But an
anchor whose processing panics (e.g. one with no following sibling at
all) aborts the processing of the entire anchor list: no record of the
page survives. -/
theorem anchor_skip_and_panic_abort (cs : List Node) (k : Nat)
    (c fc ns : Node) (t : String) (idPart : List Char)
    (hfc : c.children.head? = some fc) (ht : fc.val = NVal.text t)
    (hid : (splitOnChar '-' t.data).get? 1 = some idPart)
    (hns : cs.get? (k + 1) = some ns)
    (hcond : (ns.isText || (ns.isElement && ns.elemName == some "span"))
      = false) :
    processAnchor cs k c = some none ∧
    (∀ (l : List (Nat × Node)) (k' : Nat) (c' : Node), (k', c') ∈ l →
      processAnchor cs k' c' = none → processAnchors cs l = none) := by
  constructor
  · rw [List.get?_eq_getElem?] at hid hns
    simp [processAnchor, hfc, ht, hid, hns, hcond]
  · exact fun l k' c' => processAnchors_panic cs l k' c'

theorem anchor_skip_and_panic_abort_witness :
    processAnchor
      [img "safe.png", txt " ", anchor "SCP-002",
        Node.mk (NVal.elem "b" []) []] 2 (anchor "SCP-002") = some none :=
  (anchor_skip_and_panic_abort
    [img "safe.png", txt " ", anchor "SCP-002",
      Node.mk (NVal.elem "b" []) []] 2 (anchor "SCP-002")
    (txt "SCP-002") (Node.mk (NVal.elem "b" []) []) "SCP-002" ("002".data)
    rfl rfl (by decide) rfl (by decide)).1

end Scp
